import Mathlib

/-!
Verification development for `recur` (`src/recur.py`), a command-line
wrapper that retries a command with exponential backoff and jitter.

The embedding is shallow:

* Python floats are modelled as exact rationals (`ℚ`); the one place where
  IEEE-754 overflow behaviour matters (`backoff**i` on line 60) gets a
  separate overflow-aware model (`pyPow`, `fixedDelayFloat`).
* The child process is an oracle `run : ℕ → Outcome` giving the outcome of
  the i-th invocation of the process-execution primitive (`sp.run`), and
  interruption of `time.sleep` is an oracle `sleepInt : ℕ → Bool`
  (`true` = a `KeyboardInterrupt` arrives during the sleep that follows
  failed attempt `i`).  `random.uniform` is an oracle `rnd : ℕ → ℚ`.
* Exit statuses are naturals; `0` is success, anything else makes
  `subprocess.run(args, check=True)` raise `CalledProcessError`.
  Negative (signal) return codes are not modelled; no claim uses them.
-/

namespace Recur

/-- `MAX_DELAY = 366 * 24 * 60 * 60` from line 36 of `src/recur.py`, a
Python `int`. -/
def MAX_DELAY : ℕ := 366 * 24 * 60 * 60

deriving instance DecidableEq for Except

/-- The keyword arguments of `retry_command` (lines 40-48): the validated
configuration the driver runs with. -/
structure Config where
  backoff : ℚ
  min_fixed_delay : ℚ
  max_fixed_delay : ℚ
  min_random_delay : ℚ
  max_random_delay : ℚ
  tries : ℤ
deriving DecidableEq

/-- Outcome of one invocation of `sp.run(args, check=True)` (line 53):
the child exits with a status, or the child cannot be launched at all
(`OSError`/`FileNotFoundError`, uncaught by the `except` clause), or a
`KeyboardInterrupt` arrives while the child runs. -/
inductive Outcome where
  | exit (code : ℕ)
  | launchFail
  | interrupt
deriving DecidableEq

/-- How `retry_command` terminates: fall off the loop and return `None`;
raise `CalledProcessError` (the bare `raise` on line 58); raise the launch
exception; or raise `KeyboardInterrupt`. -/
inductive RCResult where
  | finished
  | calledProcessError (code : ℕ)
  | launchError
  | keyboardInterrupt
deriving DecidableEq

/-- Observable trace of one call of `retry_command`: how many times the
process-execution primitive was invoked, the durations of the completed
sleeps (line 62), in order, and how the call terminated. -/
structure Trace where
  runs : ℕ
  sleeps : List ℚ
  result : RCResult
deriving DecidableEq

/-- Line 60: `fixed_delay = min(max_fixed_delay, min_fixed_delay * backoff**i)`,
over exact rationals. -/
def fixed_delay (cfg : Config) (i : ℕ) : ℚ :=
  min cfg.max_fixed_delay (cfg.min_fixed_delay * cfg.backoff ^ i)

/-- The `for i in iterator` loop of `retry_command` (lines 51-62), with
current index `i` and `rem` iterations left.  Each iteration invokes the
child once; status `0` returns normally and the loop just continues (the
body has no `break` or `return`); a non-zero status raises
`CalledProcessError`, which is re-raised when `i == tries - 1` and
otherwise leads to `time.sleep(fixed_delay + random_delay)`, which either
completes or is interrupted. -/
def retryLoop (cfg : Config) (run : ℕ → Outcome) (sleepInt : ℕ → Bool)
    (rnd : ℕ → ℚ) : ℕ → ℕ → Trace
  | _, 0 => ⟨0, [], .finished⟩
  | i, rem + 1 =>
    match run i with
    | .exit 0 =>
      let t := retryLoop cfg run sleepInt rnd (i + 1) rem
      ⟨t.runs + 1, t.sleeps, t.result⟩
    | .exit (c + 1) =>
      if (i : ℤ) = cfg.tries - 1 then ⟨1, [], .calledProcessError (c + 1)⟩
      else if sleepInt i then ⟨1, [], .keyboardInterrupt⟩
      else
        let t := retryLoop cfg run sleepInt rnd (i + 1) rem
        ⟨t.runs + 1, (fixed_delay cfg i + rnd i) :: t.sleeps, t.result⟩
    | .launchFail => ⟨1, [], .launchError⟩
    | .interrupt => ⟨1, [], .keyboardInterrupt⟩

/-- `retry_command` (lines 40-62).  Line 50 picks the iterator:
`range(tries)` when `tries >= 0`, else `itertools.count()`.  The finite
case is modelled exactly; `none` stands for the unbounded iterator, whose
possibly non-terminating runs are treated per claim. -/
def retry_command (cfg : Config) (run : ℕ → Outcome) (sleepInt : ℕ → Bool)
    (rnd : ℕ → ℚ) : Option Trace :=
  if 0 ≤ cfg.tries then some (retryLoop cfg run sleepInt rnd 0 cfg.tries.toNat)
  else none

/-- Observable termination of `main` (lines 174-187).  `exit c` is a clean
termination with status `c` (plain return gives `0`, `sys.exit(e.returncode)`
gives the child's code, the `except KeyboardInterrupt: pass` clause gives
`0`).  `uncaught` is an unhandled exception: Python prints a traceback and
the interpreter terminates, distinguishable from any clean `sys.exit`.
`configError` is argparse rejecting an option value before `retry_command`
is ever called (usage message, `SystemExit(2)`). -/
inductive MainResult where
  | configError
  | exit (code : ℕ)
  | uncaught
deriving DecidableEq

/-- The `try/except` around `retry_command` in `main` (lines 174-187):
`CalledProcessError` becomes `sys.exit(e.returncode)`, `KeyboardInterrupt`
is swallowed (`pass`, so `main` returns and the process exits 0), a normal
return exits 0, and any other exception (a launch failure) is uncaught. -/
def mainOf : RCResult → MainResult
  | .finished => .exit 0
  | .calledProcessError c => .exit c
  | .keyboardInterrupt => .exit 0
  | .launchError => .uncaught

/-- The range check of the nested `delay` converter (lines 102-109), on an
already-converted numeric value: reject iff `value < 0 or value > MAX_DELAY`. -/
def delayValue (value : ℚ) : Except String ℚ :=
  if value < 0 ∨ value > (MAX_DELAY : ℚ) then
    .error "delay must be between zero and 31622400"
  else .ok value

/-- Accumulate decimal digits; `none` on the empty list or a non-digit. -/
def digitsVal (l : List Char) : Option ℕ :=
  if l.isEmpty then none
  else l.foldl (fun acc c =>
    acc.bind fun a => if c.isDigit then some (10 * a + (c.toNat - 48)) else none)
    (some 0)

/-- Model of the Python builtin `float(arg)` (line 103), an external
primitive, restricted to the unsigned decimal fragment the jitter grammar
exercises: digit strings, optionally with one decimal point and digits on
both sides.  Anything else is a `ValueError`. -/
def pyFloat (l : List Char) : Except String ℚ :=
  let dots := l.count '.'
  if dots = 0 then
    match digitsVal l with
    | some n => .ok (n : ℚ)
    | none => .error "could not convert string to float"
  else if dots = 1 then
    let ip := l.takeWhile (fun c => c ≠ '.')
    let fp := (l.dropWhile (fun c => c ≠ '.')).drop 1
    match digitsVal ip, digitsVal fp with
    | some a, some b => .ok ((a : ℚ) + (b : ℚ) / 10 ^ fp.length)
    | _, _ => .error "could not convert string to float"
  else .error "could not convert string to float"

/-- The `delay` converter (lines 102-109) on its string argument:
`float(arg)` followed by the range check. -/
def delayArg (l : List Char) : Except String ℚ := do
  delayValue (← pyFloat l)

/-- Python `arg.split(",", 1)` (line 124): the part before the first comma
and the part after it. -/
def splitFirstComma (l : List Char) : List Char × List Char :=
  (l.takeWhile (fun c => c ≠ ','),
    (l.dropWhile (fun c => c ≠ ',')).drop 1)

/-- The `jitter` converter (lines 119-129): count commas; zero commas means
bounds `("0", arg)`, one comma splits the string, more are rejected; both
parts then go through `delay`. -/
def jitter (arg : List Char) : Except String (ℚ × ℚ) :=
  let commas := arg.count ','
  if commas = 0 then do
    pure (← delayArg ['0'], ← delayArg arg)
  else if commas = 1 then do
    let p := splitFirstComma arg
    pure (← delayArg p.1, ← delayArg p.2)
  else .error "jitter range must contain no more than one comma"

/-- The raw option values `main` receives before the `delay`/`jitter`
converters run: `-b`, `-d`, `-j`, `-m`, `-t` (numeric options are taken
after Python's `float`/`int` conversion, the jitter argument as the raw
string). -/
structure RawOpts where
  backoff : ℚ
  delay : ℚ
  jitter_arg : List Char
  max_delay : ℚ
  tries : ℤ
deriving DecidableEq

/-- Argparse running the converters (lines 111-157): any `ValueError`
raised by `delay` or `jitter` aborts parsing before `retry_command` is
called.  (Argparse checks options in command-line order; the order here is
immaterial since any single failure aborts.) -/
def parseOpts (o : RawOpts) : Except String Config := do
  let d ← delayValue o.delay
  let j ← jitter o.jitter_arg
  let m ← delayValue o.max_delay
  pure ⟨o.backoff, d, m, j.1, j.2, o.tries⟩

/-- `main` (lines 65-187): parse and validate the options, then run
`retry_command` and map its termination through the `try/except`.  The
result is paired with the number of child invocations; `none` again stands
for the unmodelled unbounded iterator. -/
def mainModel (o : RawOpts) (run : ℕ → Outcome) (sleepInt : ℕ → Bool)
    (rnd : ℕ → ℚ) : Option (MainResult × ℕ) :=
  match parseOpts o with
  | .error _ => some (.configError, 0)
  | .ok cfg => (retry_command cfg run sleepInt rnd).map
      fun t => (mainOf t.result, t.runs)

/-- A valid configuration in the sense of spec §3: every delay value in
`[0, MAX_DELAY]`, jitter bounds ordered, non-negative backoff multiplier. -/
def validConfig (cfg : Config) : Prop :=
  0 ≤ cfg.backoff ∧
  0 ≤ cfg.min_fixed_delay ∧ cfg.min_fixed_delay ≤ (MAX_DELAY : ℚ) ∧
  0 ≤ cfg.max_fixed_delay ∧ cfg.max_fixed_delay ≤ (MAX_DELAY : ℚ) ∧
  0 ≤ cfg.min_random_delay ∧ cfg.min_random_delay ≤ (MAX_DELAY : ℚ) ∧
  0 ≤ cfg.max_random_delay ∧ cfg.max_random_delay ≤ (MAX_DELAY : ℚ) ∧
  cfg.min_random_delay ≤ cfg.max_random_delay

instance (cfg : Config) : Decidable (validConfig cfg) := by
  unfold validConfig
  infer_instance

/-- Attempt `j` neither ends the loop nor sleeps into an interrupt: the
child exits 0 (the loop just continues), or it fails on a non-last attempt
and the sleep completes. -/
def continues (cfg : Config) (run : ℕ → Outcome) (sleepInt : ℕ → Bool)
    (j : ℕ) : Prop :=
  run j = .exit 0 ∨
    ((∃ c, run j = .exit (c + 1)) ∧ (j : ℤ) ≠ cfg.tries - 1 ∧ sleepInt j = false)

/-- Largest finite IEEE-754 double, `2^1024 - 2^971`. -/
def maxFloat : ℚ := 2 ^ 1024 - 2 ^ 971

/-- Model of CPython float exponentiation `backoff ** i` (line 60):
`float.__pow__` raises `OverflowError` when the result exceeds the largest
finite double (C `pow` sets `ERANGE`); otherwise the value is returned
(exactly, in this model — exact for the power-of-two inputs used below). -/
def pyPow (b : ℚ) (i : ℕ) : Except String ℚ :=
  if b ^ i ≤ maxFloat then .ok (b ^ i) else .error "OverflowError"

/-- Line 60 under the float-overflow model: Python evaluates `backoff**i`
first, so an `OverflowError` escapes before the multiplication and the
`min` with `max_fixed_delay` are ever applied. -/
def fixedDelayFloat (cfg : Config) (i : ℕ) : Except String ℚ := do
  let p ← pyPow cfg.backoff i
  pure (min cfg.max_fixed_delay (cfg.min_fixed_delay * p))

/-- Whether a converter accepted its argument (did not raise `ValueError`). -/
def accepted {α : Type} : Except String α → Bool
  | .ok _ => true
  | .error _ => false

lemma loop_cont (cfg : Config) (run : ℕ → Outcome) (sleepInt : ℕ → Bool)
    (rnd : ℕ → ℚ) (i rem : ℕ) (h : continues cfg run sleepInt i) :
    (retryLoop cfg run sleepInt rnd i (rem + 1)).result
      = (retryLoop cfg run sleepInt rnd (i + 1) rem).result
  ∧ (retryLoop cfg run sleepInt rnd i (rem + 1)).runs
      = (retryLoop cfg run sleepInt rnd (i + 1) rem).runs + 1 := by
  rcases h with h | ⟨⟨c, hc⟩, hne, hs⟩
  · simp only [retryLoop, h]
    simp
  · simp only [retryLoop, hc, if_neg hne, hs, Bool.false_eq_true, if_false]
    simp

lemma loop_reach (cfg : Config) (run : ℕ → Outcome) (sleepInt : ℕ → Bool)
    (rnd : ℕ → ℚ) :
    ∀ (i a rem : ℕ), (∀ j, a ≤ j → j < a + i → continues cfg run sleepInt j) →
      i ≤ rem →
    (retryLoop cfg run sleepInt rnd a rem).result
      = (retryLoop cfg run sleepInt rnd (a + i) (rem - i)).result
  ∧ (retryLoop cfg run sleepInt rnd a rem).runs
      = (retryLoop cfg run sleepInt rnd (a + i) (rem - i)).runs + i := by
  intro i
  induction i with
  | zero => intro a rem _ _; simp
  | succ n ih =>
    intro a rem hcont hle
    obtain ⟨r, rfl⟩ : ∃ r, rem = r + 1 := ⟨rem - 1, by omega⟩
    have hstep := loop_cont cfg run sleepInt rnd a r
      (hcont a le_rfl (by omega))
    have hih := ih (a + 1) r
      (fun j h1 h2 => hcont j (by omega) (by omega)) (by omega)
    have he1 : a + 1 + n = a + (n + 1) := by omega
    have he2 : r - n = r + 1 - (n + 1) := by omega
    rw [he1, he2] at hih
    exact ⟨hstep.1.trans hih.1, by omega⟩

lemma loop_stop (cfg : Config) (run : ℕ → Outcome) (sleepInt : ℕ → Bool)
    (rnd : ℕ → ℚ) (i rem : ℕ)
    (h : run i = .interrupt ∨
      ((∃ c, run i = .exit (c + 1)) ∧ (i : ℤ) ≠ cfg.tries - 1 ∧ sleepInt i = true)) :
    retryLoop cfg run sleepInt rnd i (rem + 1) = ⟨1, [], .keyboardInterrupt⟩ := by
  rcases h with h | ⟨⟨c, hc⟩, hne, hs⟩
  · simp only [retryLoop, h]
  · simp only [retryLoop, hc, if_neg hne, hs, if_true]

lemma loop_launch (cfg : Config) (run : ℕ → Outcome) (sleepInt : ℕ → Bool)
    (rnd : ℕ → ℚ) (i rem : ℕ) (h : run i = .launchFail) :
    retryLoop cfg run sleepInt rnd i (rem + 1) = ⟨1, [], .launchError⟩ := by
  simp only [retryLoop, h]

lemma loop_const_fail (cfg : Config) (c : ℕ) (rnd : ℕ → ℚ) :
    ∀ (rem i : ℕ), (i : ℤ) + (rem : ℤ) = cfg.tries → 1 ≤ rem →
    retryLoop cfg (fun _ => .exit (c + 1)) (fun _ => false) rnd i rem
      = ⟨rem, (List.range (rem - 1)).map (fun k => fixed_delay cfg (i + k) + rnd (i + k)),
          .calledProcessError (c + 1)⟩ := by
  intro rem
  induction rem with
  | zero => intro i _ h1; omega
  | succ r ih =>
    intro i hsum h1
    rcases Nat.eq_zero_or_pos r with hr | hr
    · subst hr
      simp only [retryLoop]
      rw [if_pos (by push_cast at hsum ⊢; omega)]
      rfl
    · have hne : (i : ℤ) ≠ cfg.tries - 1 := by push_cast at hsum ⊢; omega
      simp only [retryLoop]
      rw [if_neg hne]
      simp only [Bool.false_eq_true, if_false]
      rw [ih (i + 1) (by push_cast at hsum ⊢; omega) hr]
      refine congrArg₂ (Trace.mk (r + 1)) ?_ rfl
      obtain ⟨s, rfl⟩ : ∃ s, r = s + 1 := ⟨r - 1, by omega⟩
      rw [Nat.add_sub_cancel, Nat.add_sub_cancel, List.range_succ_eq_map,
        List.map_cons, List.map_map]
      simp only [Nat.add_zero]
      refine congrArg (List.cons _) (List.map_congr_left ?_)
      intro k _
      have h3 : i + 1 + k = i + (k + 1) := by omega
      simp only [Function.comp_apply, Nat.succ_eq_add_one, h3]


lemma parseOpts_error (o : RawOpts)
    (h : accepted (delayValue o.delay) = false
      ∨ accepted (jitter o.jitter_arg) = false
      ∨ accepted (delayValue o.max_delay) = false) :
    ∃ e, parseOpts o = .error e := by
  unfold parseOpts
  rcases hd : delayValue o.delay with ed | d
  · exact ⟨ed, rfl⟩
  · rcases hj : jitter o.jitter_arg with ej | j
    · exact ⟨ej, rfl⟩
    · rcases hm : delayValue o.max_delay with em | m
      · exact ⟨em, rfl⟩
      · rw [hd, hj, hm] at h
        simp [accepted] at h

lemma mainModel_configError (o : RawOpts) (run : ℕ → Outcome)
    (sleepInt : ℕ → Bool) (rnd : ℕ → ℚ) (h : ∃ e, parseOpts o = .error e) :
    mainModel o run sleepInt rnd = some (.configError, 0) := by
  obtain ⟨e, he⟩ := h
  unfold mainModel
  rw [he]

/-- C10: with `tries = 0` the iterator is `range(0)`, so the loop body never
runs: zero child invocations, zero sleeps, `retry_command` returns normally
and `main` exits with status 0, exactly as on success. -/
theorem zero_tries_zero_attempts (b dm dM rm rM : ℚ) (run : ℕ → Outcome)
    (sleepInt : ℕ → Bool) (rnd : ℕ → ℚ) :
    retry_command ⟨b, dm, dM, rm, rM, 0⟩ run sleepInt rnd = some ⟨0, [], .finished⟩
      ∧ mainOf RCResult.finished = .exit 0 :=
  ⟨rfl, rfl⟩

/-- C4, evaluated at the failing input: with `tries = 3` and a child that
always exits 0, the loop body has no `break` or `return` after a successful
`sp.run`, so the child is executed 3 times, not once (the final exit status
is still 0). -/
theorem success_rerun_three_times :
    (retry_command ⟨1, 0, 86400, 0, 0, 3⟩ (fun _ => .exit 0) (fun _ => false)
        (fun _ => 0)).map (fun t => (t.runs, t.sleeps, mainOf t.result))
      = some (3, [], .exit 0) := by decide

/-- C1 counterexample: `tries = N = 0` with a child that always exits 7 runs
the child 0 times (= N) but the program's final exit code is 0, not the
child's exit code 7, refuting the claim at N = 0. -/
theorem zero_tries_failing_child_exits_zero :
    mainModel ⟨1, 0, ['0'], 86400, 0⟩ (fun _ => .exit 7) (fun _ => false)
        (fun _ => 0) = some (.exit 0, 0)
      ∧ MainResult.exit 0 ≠ MainResult.exit 7 := by
  exact ⟨by decide, by decide⟩

/-- C1 as amended: a child that always exits with non-zero code `c + 1`
under `tries = N ≥ 0` is run exactly `N` times; for `N ≥ 1` the program's
final exit code is the child's, while for `N = 0` the program exits 0. -/
theorem always_fail_runs_N_times (N c : ℕ) (b dm dM rm rM : ℚ) (rnd : ℕ → ℚ) :
    (retry_command ⟨b, dm, dM, rm, rM, (N : ℤ)⟩ (fun _ => .exit (c + 1))
        (fun _ => false) rnd).map (fun t => (t.runs, mainOf t.result))
      = some (N, if N = 0 then MainResult.exit 0 else .exit (c + 1)) := by
  unfold retry_command
  rw [if_pos (Int.natCast_nonneg N)]
  have ht : ((N : ℤ)).toNat = N := Int.toNat_natCast N
  rw [ht]
  rcases Nat.eq_zero_or_pos N with h0 | h1
  · subst h0
    rfl
  · rw [loop_const_fail _ c rnd N 0 (by push_cast; omega) h1]
    simp [mainOf, Nat.pos_iff_ne_zero.mp h1]

/-- C2 counterexample: with `min_fixed_delay = 2` and `max_fixed_delay = 1`
(both accepted by validation, which never compares them), the delay slept
after the first failure is `min(1, 2·1^0) = 1`, not `min_fixed_delay = 2`. -/
theorem first_sleep_is_ceiling_not_min :
    (retry_command ⟨1, 2, 1, 0, 0, 2⟩ (fun _ => .exit 1) (fun _ => false)
        (fun _ => 0)).map Trace.sleeps = some [1]
      ∧ ((1 : ℚ) ≠ 2) := by
  constructor
  · norm_num [retry_command, retryLoop, fixed_delay]
  · norm_num

/-- C2 as amended: when a failing attempt `k` is followed by another
attempt, the `k`-th completed sleep is
`min(max_fixed_delay, min_fixed_delay * backoff ^ k)` plus the jitter draw
(zero-based `k`, so the sleep after the first failure uses exponent 0);
it equals `min_fixed_delay + jitter` when `min_fixed_delay ≤ max_fixed_delay`. -/
theorem sleep_delay_formula (cfg : Config) (rnd : ℕ → ℚ) (c k : ℕ)
    (hk : (k : ℤ) + 1 < cfg.tries) :
    ∃ t, retry_command cfg (fun _ => .exit (c + 1)) (fun _ => false) rnd = some t
      ∧ t.sleeps[k]? = some (fixed_delay cfg k + rnd k)
      ∧ fixed_delay cfg k
          = min cfg.max_fixed_delay (cfg.min_fixed_delay * cfg.backoff ^ k)
      ∧ (cfg.min_fixed_delay ≤ cfg.max_fixed_delay →
          fixed_delay cfg 0 = cfg.min_fixed_delay) := by
  have h0 : 0 ≤ cfg.tries := by omega
  have hN : k + 1 < cfg.tries.toNat := by omega
  refine ⟨_, by unfold retry_command; rw [if_pos h0], ?_, rfl, ?_⟩
  · rw [loop_const_fail cfg c rnd cfg.tries.toNat 0
      (by push_cast; omega) (by omega)]
    simp only [List.getElem?_map, zero_add]
    rw [List.getElem?_range (by omega)]
    rfl
  · intro h
    unfold fixed_delay
    rw [pow_zero, mul_one]
    exact min_eq_right h

/-- C2 witness: the amended statement at a concrete configuration. -/
theorem sleep_delay_formula_witness :
    ∃ t, retry_command ⟨2, 1, 86400, 0, 0, 5⟩ (fun _ => .exit 1) (fun _ => false)
        (fun _ => 0) = some t
      ∧ t.sleeps[1]? = some (fixed_delay ⟨2, 1, 86400, 0, 0, 5⟩ 1 + 0)
      ∧ fixed_delay ⟨2, 1, 86400, 0, 0, 5⟩ 1 = min 86400 (1 * 2 ^ 1)
      ∧ ((1 : ℚ) ≤ 86400 → fixed_delay ⟨2, 1, 86400, 0, 0, 5⟩ 0 = 1) :=
  sleep_delay_formula ⟨2, 1, 86400, 0, 0, 5⟩ (fun _ => 0) 0 1 (by decide)

/-- C3, evaluated at the failing input: with `backoff = 2` (and the default
`min_fixed_delay = 0`, `max_fixed_delay = 86400`, unbounded `tries = -1`),
line 60 evaluates `backoff**i` before the `min`; at attempt index 1100 the
exact power `2^1100` exceeds the largest finite IEEE-754 double, so CPython
raises `OverflowError` instead of saturating at `max_fixed_delay` — the
exponential term does not saturate, it exceeds the ceiling unboundedly. -/
theorem backoff_pow_overflow :
    fixedDelayFloat ⟨2, 0, 86400, 0, 0, -1⟩ 1100 = .error "OverflowError"
      ∧ (⟨2, 0, 86400, 0, 0, -1⟩ : Config).max_fixed_delay < (2 : ℚ) ^ 1100 := by
  have h17 : (2 : ℚ) ^ 17 ≤ 2 ^ 1100 := pow_le_pow_right₀ (by norm_num) (by norm_num)
  have h86400 : (86400 : ℚ) < 2 ^ 1100 := by
    have : (86400 : ℚ) < 2 ^ 17 := by norm_num
    linarith
  have h1 : maxFloat < (2 : ℚ) ^ 1100 := by
    unfold maxFloat
    have h2 : (0 : ℚ) < 2 ^ 971 := by positivity
    have h3 : (2 : ℚ) ^ 1024 ≤ 2 ^ 1100 := pow_le_pow_right₀ (by norm_num) (by norm_num)
    linarith
  refine ⟨?_, h86400⟩
  unfold fixedDelayFloat pyPow
  rw [if_neg (not_le.mpr h1)]
  rfl

/-- C5 counterexample: `MAX_DELAY` is `366 * 24 * 60 * 60 = 31622400`
seconds — 366 days, one leap year — not one non-leap year
(`365 * 24 * 60 * 60 = 31536000`); in particular the value `31536001`,
which exceeds one non-leap year, is accepted by the validator. -/
theorem max_delay_is_leap_year :
    MAX_DELAY = 31622400 ∧ MAX_DELAY ≠ 365 * 24 * 60 * 60
      ∧ delayValue (31536001 : ℚ) = .ok 31536001 := by decide

/-- C5 as amended: a delay-shaped value is accepted iff it lies in
`[0, MAX_DELAY]` with `MAX_DELAY = 366 * 24 * 60 * 60` (366 days, one leap
year); exactly `MAX_DELAY` is accepted and `MAX_DELAY + 1` rejected; and a
rejected `-d`, `-j` or `-m` value makes `main` fail as a configuration
error with zero attempts made. -/
theorem delay_range_validation (v : ℚ) :
    (delayValue v = .ok v ↔ 0 ≤ v ∧ v ≤ (MAX_DELAY : ℚ))
  ∧ MAX_DELAY = 366 * 24 * 60 * 60
  ∧ delayValue (MAX_DELAY : ℚ) = .ok (MAX_DELAY : ℚ)
  ∧ delayValue ((MAX_DELAY : ℚ) + 1) = .error "delay must be between zero and 31622400"
  ∧ (∀ (o : RawOpts) (run : ℕ → Outcome) (sleepInt : ℕ → Bool) (rnd : ℕ → ℚ),
      accepted (delayValue o.delay) = false
        ∨ accepted (jitter o.jitter_arg) = false
        ∨ accepted (delayValue o.max_delay) = false →
      mainModel o run sleepInt rnd = some (.configError, 0)) := by
  refine ⟨?_, rfl, by decide, ?_, ?_⟩
  · unfold delayValue
    split_ifs with h
    · constructor
      · intro he
        cases he
      · rintro ⟨h1, h2⟩
        rcases h with h | h <;> linarith
    · push_neg at h
      simp [h]
  · unfold delayValue
    rw [if_pos]
    right
    norm_num
  · intro o run sleepInt rnd h
    exact mainModel_configError o run sleepInt rnd (parseOpts_error o h)

/-- C5 witness: a value inside the range is accepted, and an out-of-range
`-d` value aborts `main` before any attempt. -/
theorem delay_range_validation_witness :
    delayValue 5 = .ok 5
  ∧ mainModel ⟨1, -1, ['0'], 86400, 3⟩ (fun _ => .exit 0) (fun _ => false)
      (fun _ => 0) = some (.configError, 0) := by
  refine ⟨(delay_range_validation 5).1.mpr (by decide), ?_⟩
  exact (delay_range_validation 0).2.2.2.2 ⟨1, -1, ['0'], 86400, 3⟩ _ _ _
    (Or.inl (by decide))

/-- C8: for a valid configuration the fixed delay component is
non-decreasing in the attempt index whenever `backoff ≥ 1`, and is always
bounded by `max_fixed_delay`. -/
theorem fixed_delay_monotone_bounded (cfg : Config) (i j : ℕ)
    (hv : validConfig cfg) :
    (1 ≤ cfg.backoff → i ≤ j → fixed_delay cfg i ≤ fixed_delay cfg j)
      ∧ fixed_delay cfg i ≤ cfg.max_fixed_delay := by
  unfold validConfig at hv
  obtain ⟨hb0, hmin0, -⟩ := hv
  refine ⟨fun hb hij => ?_, min_le_left _ _⟩
  exact min_le_min le_rfl
    (mul_le_mul_of_nonneg_left (pow_le_pow_right₀ hb hij) hmin0)

/-- C8 witness: the property at a concrete valid configuration. -/
theorem fixed_delay_monotone_bounded_witness :
    fixed_delay ⟨2, 1, 86400, 0, 0, 3⟩ 0 ≤ fixed_delay ⟨2, 1, 86400, 0, 0, 3⟩ 1
      ∧ fixed_delay ⟨2, 1, 86400, 0, 0, 3⟩ 2 ≤ (86400 : ℚ) :=
  ⟨(fixed_delay_monotone_bounded ⟨2, 1, 86400, 0, 0, 3⟩ 0 1 (by decide)).1
      (by decide) (by decide),
    (fixed_delay_monotone_bounded ⟨2, 1, 86400, 0, 0, 3⟩ 2 0 (by decide)).2⟩

/-- C9: jitter string parsing sends `"5"` to bounds `(0, 5)` and `"2,5"` to
`(2, 5)`, and any argument with two or more commas — such as `"1,2,3"` — is
rejected with a `ValueError` (a configuration error). -/
theorem jitter_string_parsing (arg : List Char) (h2 : 2 ≤ arg.count ',') :
    jitter "5".toList = .ok (0, 5)
  ∧ jitter "2,5".toList = .ok (2, 5)
  ∧ jitter "1,2,3".toList = .error "jitter range must contain no more than one comma"
  ∧ jitter arg = .error "jitter range must contain no more than one comma" := by
  refine ⟨by decide, by decide, by decide, ?_⟩
  unfold jitter
  rw [if_neg (by omega), if_neg (by omega)]

/-- C9 witness: the rejection clause applied to `"1,2,3"`. -/
theorem jitter_string_parsing_witness :
    jitter "5".toList = .ok (0, 5)
  ∧ jitter "2,5".toList = .ok (2, 5)
  ∧ jitter "1,2,3".toList = .error "jitter range must contain no more than one comma"
  ∧ jitter "1,2,3".toList = .error "jitter range must contain no more than one comma" :=
  jitter_string_parsing "1,2,3".toList (by decide)

/-- C6: if a `KeyboardInterrupt` arrives at attempt `i` — during the child
run or during the following sleep — after `i` attempts that kept the loop
going, the driver stops at once: the child is not run again
(`runs = i + 1`), the interrupt is not treated as a command failure, and
`main` swallows it and exits 0 (no failure exit code, no traceback). -/
theorem interrupt_stops_immediately (cfg : Config) (run : ℕ → Outcome)
    (sleepInt : ℕ → Bool) (rnd : ℕ → ℚ) (i : ℕ)
    (hreach : ∀ j, j < i → continues cfg run sleepInt j)
    (hi : (i : ℤ) < cfg.tries)
    (hint : run i = .interrupt ∨
      ((∃ c, run i = .exit (c + 1)) ∧ (i : ℤ) ≠ cfg.tries - 1 ∧ sleepInt i = true)) :
    ∃ t, retry_command cfg run sleepInt rnd = some t
      ∧ t.result = .keyboardInterrupt ∧ t.runs = i + 1
      ∧ mainOf t.result = .exit 0 := by
  have h0 : 0 ≤ cfg.tries := le_trans (Int.natCast_nonneg i) (le_of_lt hi)
  have hiN : i < cfg.tries.toNat := by omega
  have hrch := loop_reach cfg run sleepInt rnd i 0 cfg.tries.toNat
    (fun j _ hj => hreach j (by omega)) (by omega)
  rw [zero_add] at hrch
  obtain ⟨r, hr⟩ : ∃ r, cfg.tries.toNat - i = r + 1 := ⟨cfg.tries.toNat - i - 1, by omega⟩
  rw [hr, loop_stop cfg run sleepInt rnd i r hint] at hrch
  refine ⟨retryLoop cfg run sleepInt rnd 0 cfg.tries.toNat,
    by unfold retry_command; rw [if_pos h0], ?_, ?_, ?_⟩
  · exact hrch.1
  · rw [hrch.2]
    exact Nat.add_comm 1 i
  · rw [hrch.1]
    rfl

/-- C6 witness: a successful first attempt followed by an interrupt during
the second child run, under a budget of 5 tries. -/
theorem interrupt_stops_immediately_witness :
    ∃ t, retry_command ⟨1, 0, 86400, 0, 0, 5⟩
        (fun j => if j = 0 then .exit 0 else .interrupt) (fun _ => false)
        (fun _ => 0) = some t
      ∧ t.result = .keyboardInterrupt ∧ t.runs = 1 + 1
      ∧ mainOf t.result = .exit 0 := by
  refine interrupt_stops_immediately ⟨1, 0, 86400, 0, 0, 5⟩
    (fun j => if j = 0 then .exit 0 else .interrupt) (fun _ => false)
    (fun _ => 0) 1 ?_ (by decide) (Or.inl (by decide))
  intro j hj
  interval_cases j
  exact Or.inl (by decide)

/-- C7: if the child cannot be launched at attempt `i`, the exception is
not caught: no further attempt is made no matter how much of the tries
budget remains (`runs = i + 1`), and the failure surfaces as an uncaught
exception — a fatal condition distinct from every clean exit with a
child's exit code. -/
theorem launch_failure_fatal (cfg : Config) (run : ℕ → Outcome)
    (sleepInt : ℕ → Bool) (rnd : ℕ → ℚ) (i : ℕ)
    (hreach : ∀ j, j < i → continues cfg run sleepInt j)
    (hi : (i : ℤ) < cfg.tries)
    (hlf : run i = .launchFail) :
    ∃ t, retry_command cfg run sleepInt rnd = some t
      ∧ t.result = .launchError ∧ t.runs = i + 1
      ∧ mainOf t.result = .uncaught
      ∧ ∀ code : ℕ, mainOf t.result ≠ .exit code := by
  have h0 : 0 ≤ cfg.tries := le_trans (Int.natCast_nonneg i) (le_of_lt hi)
  have hiN : i < cfg.tries.toNat := by omega
  have hrch := loop_reach cfg run sleepInt rnd i 0 cfg.tries.toNat
    (fun j _ hj => hreach j (by omega)) (by omega)
  rw [zero_add] at hrch
  obtain ⟨r, hr⟩ : ∃ r, cfg.tries.toNat - i = r + 1 := ⟨cfg.tries.toNat - i - 1, by omega⟩
  rw [hr, loop_launch cfg run sleepInt rnd i r hlf] at hrch
  refine ⟨retryLoop cfg run sleepInt rnd 0 cfg.tries.toNat,
    by unfold retry_command; rw [if_pos h0], hrch.1,
    by rw [hrch.2]; exact Nat.add_comm 1 i, ?_, ?_⟩
  · rw [hrch.1]
    rfl
  · intro code hcode
    rw [hrch.1] at hcode
    cases hcode

/-- C7 witness: one failed attempt (with its sleep) and then a launch
failure on the second attempt, with 8 tries still budgeted. -/
theorem launch_failure_fatal_witness :
    ∃ t, retry_command ⟨1, 0, 86400, 0, 0, 10⟩
        (fun j => if j = 0 then .exit 3 else .launchFail) (fun _ => false)
        (fun _ => 0) = some t
      ∧ t.result = .launchError ∧ t.runs = 1 + 1
      ∧ mainOf t.result = .uncaught
      ∧ ∀ code : ℕ, mainOf t.result ≠ .exit code := by
  refine launch_failure_fatal ⟨1, 0, 86400, 0, 0, 10⟩
    (fun j => if j = 0 then .exit 3 else .launchFail) (fun _ => false)
    (fun _ => 0) 1 ?_ (by decide) (by decide)
  intro j hj
  interval_cases j
  exact Or.inr ⟨⟨2, by decide⟩, by decide, by decide⟩

end Recur
